import Mathlib

/-!
Shallow embedding of `src/cppdi.h` (namespace `DI`, class `Container`).

Modelling choices, each traced to the source:

* `typeid(T).name()` pointers, compared with `==` in `Container::Find`
  (line 148), are an opaque type identity; we model them as `Nat`
  (`TypeId`), equal iff they denote the same type.
* C++ object pointers are modelled as `Ptr := Option Nat`: `none` is
  `nullptr`, `some a` is the address of the `a`-th object ever allocated
  with `new T(...)`.  The container state carries a `heap : List HeapObj`
  recording, for every object allocated by `Ctor::Build` (line 57), its
  dynamic type and the list of constructor arguments it was built with
  (the resolved dependency pointers, positionally).  Allocation appends,
  so addresses are heap indices and fresh addresses equal `heap.length`.
* `Ctor<T, D...>` (lines 50-60) stores the produced type and the ordered
  dependency type list; its `Build` is `new T(container->Get<D>()...)`,
  embedded as: resolve the dependency list through `Get`, then allocate
  a `T` whose recorded arguments are the resolved pointers.  The C++
  standard leaves the evaluation order of a parenthesized argument pack
  unspecified; the embedding must fix one order and uses left to right.
  The theorems below are insensitive to that choice: none of them
  depends on the relative order in which two different dependencies of
  one build are resolved.
* `TypeInstance<T>` (lines 62-75) is `TrackedInstance`: a type id, an
  `Instantiation` mode and the held pointer.
* The raw arrays `bindings`/`instances` with `AddBind`/`AddInstance`
  (append at the end, lines 167-177) and linear first-match `Find`
  (lines 146-153) are lists with `++ [x]` and `List.find?`.
* `Container::Get` (lines 126-144) and the recursive dependency
  resolution inside `Build` can recurse forever on cyclic dependency
  graphs (the source has no cycle detection), so the embedding takes a
  fuel parameter; exhausted fuel at a build stands for the
  non-terminating executions and yields `none` without allocating.
  `resolveList` resolves a list of type ids by consecutive `Get` calls
  (this is exactly the pack expansion `container->Get<D>()...` of
  line 57); `get` is the single-id instance.  The fuel level is entered
  once per nested `Build`, siblings share it.
-/

namespace DI

/-- The `Instantiation` enum of line 33. -/
inductive Instantiation
  | singleton
  | factory
  | provided
deriving DecidableEq, Repr

/-- Opaque comparable type identity (`typeid(T).name()`). -/
abbrev TypeId := Nat

/-- A C++ object pointer: `none` is `nullptr`, `some a` an allocated address. -/
abbrev Ptr := Option Nat

/-- A `Ctor<T, D...>` binding (lines 50-60): produced type and ordered
dependency types. -/
structure Binding where
  ty : TypeId
  deps : List TypeId
deriving DecidableEq, Repr

/-- A `TypeInstance<T>` (lines 62-75): declared type, instantiation mode,
held pointer. -/
structure TrackedInstance where
  ty : TypeId
  mode : Instantiation
  obj : Ptr
deriving DecidableEq, Repr

/-- The record of one `new T(args...)` allocation performed by
`Ctor::Build` (line 57): dynamic type and positional constructor
arguments. -/
structure HeapObj where
  ty : TypeId
  args : List Ptr
deriving DecidableEq, Repr

/-- The `Container` state (lines 77-81), plus the allocation history
`heap` used to talk about object identity and constructor arguments. -/
structure Container where
  bindings : List Binding
  instances : List TrackedInstance
  sealedFlag : Bool
  heap : List HeapObj
deriving DecidableEq, Repr

/-- `Find<Binding, T>(bindings, numBindings)` (lines 146-153): first
binding whose type id matches. -/
def findBinding (bs : List Binding) (t : TypeId) : Option Binding :=
  bs.find? (fun b => b.ty == t)

/-- `Find<TrackedInstance, T>(instances, numInstances)` (lines 146-153). -/
def findInstance (l : List TrackedInstance) (t : TypeId) : Option TrackedInstance :=
  l.find? (fun i => i.ty == t)

/-- `new T(args...)`: append a heap object, return its address. -/
def alloc (s : Container) (t : TypeId) (args : List Ptr) : Container × Nat :=
  ({ s with heap := s.heap ++ [⟨t, args⟩] }, s.heap.length)

/-- `AddInstance` (lines 173-177): append at the end. -/
def addInstance (s : Container) (i : TrackedInstance) : Container :=
  { s with instances := s.instances ++ [i] }

/-- `AddBind` (lines 167-171): append at the end. -/
def addBind (s : Container) (b : Binding) : Container :=
  { s with bindings := s.bindings ++ [b] }

/-- The cache check of `Get` (lines 127-132): a tracked instance for `t`
whose mode is not `factory` is returned as a hit; a `factory`-mode hit or
no instance at all falls through to the build path. -/
def cacheLookup (s : Container) (t : TypeId) : Option Ptr :=
  match findInstance s.instances t with
  | some inst => if inst.mode = Instantiation.factory then none else some inst.obj
  | none => none

/-- One fuel level of dependency resolution.  `resolveStep rec s l`
performs the consecutive `Get` calls of the pack expansion
`container->Get<D>()...` (line 57) on the type list `l`, threading the
container state left to right (one of the evaluation orders the C++
standard permits for the parenthesized pack; the embedding fixes it, and
the properties proved in this file do not depend on the choice).  A
cache miss with a binding runs
`Ctor::Build` (lines 139-143 of `Get`): resolve the dependency list with
`rec` (one fuel level down), allocate the object with the resolved
pointers as positional constructor arguments, and track it with mode
`factory` (line 141).  `rec = none` means the fuel is exhausted: the
build (which would not terminate) is modelled as `none` with no
allocation. -/
def resolveStep (rec : Option (Container → List TypeId → Container × List Ptr)) :
    Container → List TypeId → Container × List Ptr
  | s, [] => (s, [])
  | s, t :: ts =>
    match cacheLookup s t with
    | some p =>
      let r := resolveStep rec s ts
      (r.1, p :: r.2)
    | none =>
      match findBinding s.bindings t with
      | none =>
        let r := resolveStep rec s ts
        (r.1, none :: r.2)
      | some b =>
        match rec with
        | none =>
          let r := resolveStep rec s ts
          (r.1, none :: r.2)
        | some f =>
          let rd := f s b.deps
          let sa := alloc rd.1 t rd.2
          let s2 := addInstance sa.1 ⟨t, Instantiation.factory, some sa.2⟩
          let r := resolveStep rec s2 ts
          (r.1, some sa.2 :: r.2)

/-- Fuel-indexed dependency resolution; each nested `Build` descends one
fuel level. -/
def resolveList : Nat → Container → List TypeId → Container × List Ptr
  | 0 => resolveStep none
  | fuel + 1 => resolveStep (some (resolveList fuel))

/-- `Container::Get<T>` (lines 126-144): the single-id instance of
`resolveList`. -/
def get (fuel : Nat) (s : Container) (t : TypeId) : Container × Ptr :=
  let r := resolveList fuel s [t]
  (r.1, r.2.headD none)

/-- `Container::Bind<T, D...>(mode, instance)` (lines 104-124): no-op when
sealed or already bound; otherwise register the binding, then for
`singleton` run `Build` at once and track the result, for `provided`
track the supplied pointer (default `nullptr`), for `factory` nothing
more. -/
def bind (fuel : Nat) (s : Container) (t : TypeId) (deps : List TypeId)
    (mode : Instantiation) (provInst : Ptr) : Container :=
  if s.sealedFlag then s
  else if (findBinding s.bindings t).isSome then s
  else
    let s1 := addBind s ⟨t, deps⟩
    match mode with
    | Instantiation.singleton =>
      let rd := resolveList fuel s1 deps
      let sa := alloc rd.1 t rd.2
      addInstance sa.1 ⟨t, Instantiation.singleton, some sa.2⟩
    | Instantiation.provided =>
      addInstance s1 ⟨t, Instantiation.provided, provInst⟩
    | Instantiation.factory => s1

/-- `Container::Seal` (lines 100-102). -/
def Seal (s : Container) : Container :=
  { s with sealedFlag := true }

/-- The freshly constructed container (line 84). -/
def emptyContainer : Container :=
  ⟨[], [], false, []⟩

/-- A sequence of `Get` calls (each with its own fuel), keeping only the
final state: used to express interleaved resolutions. -/
def runGets : Container → List (Nat × TypeId) → Container
  | s, [] => s
  | s, c :: cs => runGets (get c.1 s c.2).1 cs

/-- The tracked instances the destructor `~Container` (lines 86-98)
deletes: every instance whose mode is not `provided`, walked in reverse
registration order; `provided` entries are skipped. -/
def destroyedOnTeardown (s : Container) : List TrackedInstance :=
  s.instances.reverse.filter (fun i => decide (i.mode ≠ Instantiation.provided))

/-- `t` was never bound: no binding and no tracked instance carries its
identity. -/
def Unbound (s : Container) (t : TypeId) : Prop :=
  findBinding s.bindings t = none ∧ findInstance s.instances t = none

instance (s : Container) (t : TypeId) : Decidable (Unbound s t) := by
  unfold Unbound
  infer_instance

/-- The state and address produced by one `Ctor::Build` run from state `s`
on binding `b` for type `t` (build path of `Get`, lines 139-143): resolve
the dependency list, allocate with the resolved pointers as constructor
arguments, track the object with mode `factory`. -/
def buildResult (fuel : Nat) (s : Container) (t : TypeId) (b : Binding) : Container × Nat :=
  let rd := resolveList fuel s b.deps
  let sa := alloc rd.1 t rd.2
  (addInstance sa.1 ⟨t, Instantiation.factory, some sa.2⟩, sa.2)

lemma resolveList_nil (fuel : Nat) (s : Container) : resolveList fuel s [] = (s, []) := by
  cases fuel <;> rfl

lemma resolveList_cons_hit (fuel : Nat) (s : Container) (t : TypeId) (ts : List TypeId)
    (p : Ptr) (h : cacheLookup s t = some p) :
    resolveList fuel s (t :: ts) =
      ((resolveList fuel s ts).1, p :: (resolveList fuel s ts).2) := by
  cases fuel <;> simp [resolveList, resolveStep, h]

lemma resolveList_cons_nobind (fuel : Nat) (s : Container) (t : TypeId) (ts : List TypeId)
    (hc : cacheLookup s t = none) (hb : findBinding s.bindings t = none) :
    resolveList fuel s (t :: ts) =
      ((resolveList fuel s ts).1, none :: (resolveList fuel s ts).2) := by
  cases fuel <;> simp [resolveList, resolveStep, hc, hb]

lemma resolveList_zero_build (s : Container) (t : TypeId) (ts : List TypeId) (b : Binding)
    (hc : cacheLookup s t = none) (hb : findBinding s.bindings t = some b) :
    resolveList 0 s (t :: ts) =
      ((resolveList 0 s ts).1, none :: (resolveList 0 s ts).2) := by
  simp [resolveList, resolveStep, hc, hb]

lemma resolveList_succ_build (fuel : Nat) (s : Container) (t : TypeId) (ts : List TypeId)
    (b : Binding) (hc : cacheLookup s t = none) (hb : findBinding s.bindings t = some b) :
    resolveList (fuel + 1) s (t :: ts) =
      ((resolveList (fuel + 1) (buildResult fuel s t b).1 ts).1,
        some (buildResult fuel s t b).2 ::
          (resolveList (fuel + 1) (buildResult fuel s t b).1 ts).2) := by
  simp [resolveList, resolveStep, hc, hb, buildResult]

lemma get_hit (fuel : Nat) (s : Container) (t : TypeId) (p : Ptr)
    (h : cacheLookup s t = some p) : get fuel s t = (s, p) := by
  simp [get, resolveList_cons_hit fuel s t [] p h, resolveList_nil]

lemma get_nobind (fuel : Nat) (s : Container) (t : TypeId)
    (hc : cacheLookup s t = none) (hb : findBinding s.bindings t = none) :
    get fuel s t = (s, none) := by
  simp [get, resolveList_cons_nobind fuel s t [] hc hb, resolveList_nil]

lemma get_zero_build (s : Container) (t : TypeId) (b : Binding)
    (hc : cacheLookup s t = none) (hb : findBinding s.bindings t = some b) :
    get 0 s t = (s, none) := by
  simp [get, resolveList_zero_build s t [] b hc hb, resolveList_nil]

lemma get_succ_build (fuel : Nat) (s : Container) (t : TypeId) (b : Binding)
    (hc : cacheLookup s t = none) (hb : findBinding s.bindings t = some b) :
    get (fuel + 1) s t = ((buildResult fuel s t b).1, some (buildResult fuel s t b).2) := by
  simp [get, resolveList_succ_build fuel s t [] b hc hb, resolveList_nil]

/-- `resolveList` on `t :: ts` is: one `Get` for `t`, then the remaining
`Get` calls from the resulting state — the sequential evaluation of the
pack expansion `container->Get<D>()...` in the order this embedding
fixes. -/
lemma resolveList_cons_get (fuel : Nat) (s : Container) (t : TypeId) (ts : List TypeId) :
    resolveList fuel s (t :: ts) =
      ((resolveList fuel (get fuel s t).1 ts).1,
        (get fuel s t).2 :: (resolveList fuel (get fuel s t).1 ts).2) := by
  rcases hc : cacheLookup s t with _ | p
  · rcases hb : findBinding s.bindings t with _ | b
    · rw [resolveList_cons_nobind fuel s t ts hc hb, get_nobind fuel s t hc hb]
    · cases fuel with
      | zero => rw [resolveList_zero_build s t ts b hc hb, get_zero_build s t b hc hb]
      | succ f => rw [resolveList_succ_build f s t ts b hc hb, get_succ_build f s t b hc hb]
  · rw [resolveList_cons_hit fuel s t ts p hc, get_hit fuel s t p hc]

/-- The state-evolution invariant of one resolution pass: bindings and the
sealed flag are untouched, the heap and the instance list only grow at
the end, every instance added carries mode `factory` and a type that has
a binding, and there is one result pointer per requested type. -/
def StepOk (g : Container → List TypeId → Container × List Ptr) : Prop :=
  ∀ s l, (g s l).1.bindings = s.bindings ∧
    (g s l).1.sealedFlag = s.sealedFlag ∧
    (∃ h2, (g s l).1.heap = s.heap ++ h2) ∧
    (∃ a, (g s l).1.instances = s.instances ++ a ∧
      ∀ i ∈ a, i.mode = Instantiation.factory ∧ (findBinding s.bindings i.ty).isSome = true) ∧
    (g s l).2.length = l.length

lemma resolveStep_ok (rec : Option (Container → List TypeId → Container × List Ptr))
    (hrec : ∀ g, rec = some g → StepOk g) : StepOk (resolveStep rec) := by
  intro s l
  induction l generalizing s with
  | nil => simp [resolveStep]
  | cons t ts ih =>
    rcases hc : cacheLookup s t with _ | p <;>
      simp only [resolveStep, hc]
    · rcases hb : findBinding s.bindings t with _ | b <;> simp only [hb]
      · obtain ⟨h1, h2, h3, h4, h5⟩ := ih s
        exact ⟨h1, h2, h3, h4, by simp [h5]⟩
      · rcases hrc : rec with _ | g
        · subst hrc
          obtain ⟨h1, h2, h3, h4, h5⟩ := ih s
          exact ⟨h1, h2, h3, h4, by simp [h5]⟩
        · subst hrc
          obtain ⟨g1, g2, ⟨gh, g3⟩, ⟨ga, g4, g5⟩, g6⟩ := hrec g rfl s b.deps
          set s2 := addInstance (alloc (g s b.deps).1 t (g s b.deps).2).1
            ⟨t, Instantiation.factory, some (alloc (g s b.deps).1 t (g s b.deps).2).2⟩ with hs2
          obtain ⟨i1, i2, ⟨ih3, i3⟩, ⟨ia, i4, i5⟩, i6⟩ := ih s2
          have hs2b : s2.bindings = s.bindings := by
            simp [hs2, addInstance, alloc, g1]
          have hs2i : s2.instances = s.instances ++
              (ga ++ [⟨t, Instantiation.factory, some (alloc (g s b.deps).1 t (g s b.deps).2).2⟩]) := by
            simp [hs2, addInstance, alloc, g4]
          have hs2h : s2.heap = s.heap ++ (gh ++ [⟨t, (g s b.deps).2⟩]) := by
            simp [hs2, addInstance, alloc, g3]
          refine ⟨by rw [i1, hs2b], ?_, ?_, ?_, by simp [i6]⟩
          · rw [i2]; simp [hs2, addInstance, alloc, g2]
          · exact ⟨gh ++ [⟨t, (g s b.deps).2⟩] ++ ih3, by rw [i3, hs2h]; simp⟩
          · refine ⟨ga ++ [⟨t, Instantiation.factory, some (alloc (g s b.deps).1 t (g s b.deps).2).2⟩] ++ ia,
              by rw [i4, hs2i]; simp, ?_⟩
            intro i hi
            simp only [List.mem_append, List.mem_singleton] at hi
            rcases hi with (hi | hi) | hi
            · exact g5 i hi
            · subst hi; exact ⟨rfl, by simp [hb]⟩
            · have := i5 i hi
              rwa [hs2b] at this
    · obtain ⟨h1, h2, h3, h4, h5⟩ := ih s
      exact ⟨h1, h2, h3, h4, by simp [h5]⟩

lemma resolveList_ok (fuel : Nat) : StepOk (resolveList fuel) := by
  induction fuel with
  | zero =>
    exact resolveStep_ok none (by intro g h; cases h)
  | succ f ih =>
    refine resolveStep_ok (some (resolveList f)) ?_
    intro g h
    injection h with h
    rw [← h]
    exact ih

lemma resolveList_bindings (fuel : Nat) (s : Container) (l : List TypeId) :
    (resolveList fuel s l).1.bindings = s.bindings :=
  (resolveList_ok fuel s l).1

lemma resolveList_sealedFlag (fuel : Nat) (s : Container) (l : List TypeId) :
    (resolveList fuel s l).1.sealedFlag = s.sealedFlag :=
  (resolveList_ok fuel s l).2.1

lemma resolveList_heap_grows (fuel : Nat) (s : Container) (l : List TypeId) :
    ∃ h2, (resolveList fuel s l).1.heap = s.heap ++ h2 :=
  (resolveList_ok fuel s l).2.2.1

lemma resolveList_instances_grow (fuel : Nat) (s : Container) (l : List TypeId) :
    ∃ a, (resolveList fuel s l).1.instances = s.instances ++ a ∧
      ∀ i ∈ a, i.mode = Instantiation.factory ∧ (findBinding s.bindings i.ty).isSome = true :=
  (resolveList_ok fuel s l).2.2.2.1

lemma resolveList_length (fuel : Nat) (s : Container) (l : List TypeId) :
    (resolveList fuel s l).2.length = l.length :=
  (resolveList_ok fuel s l).2.2.2.2

lemma get_state_eq (fuel : Nat) (s : Container) (t : TypeId) :
    (get fuel s t).1 = (resolveList fuel s [t]).1 := rfl

lemma findInstance_append_some (l1 l2 : List TrackedInstance) (t : TypeId)
    (i : TrackedInstance) (h : findInstance l1 t = some i) :
    findInstance (l1 ++ l2) t = some i := by
  unfold findInstance at *
  rw [List.find?_append, h]
  rfl

lemma findInstance_append_none (l1 l2 : List TrackedInstance) (t : TypeId)
    (h : findInstance l1 t = none) :
    findInstance (l1 ++ l2) t = findInstance l2 t := by
  unfold findInstance at *
  rw [List.find?_append, h]
  rfl

lemma findBinding_append_some (l1 l2 : List Binding) (t : TypeId) (b : Binding)
    (h : findBinding l1 t = some b) : findBinding (l1 ++ l2) t = some b := by
  unfold findBinding at *
  rw [List.find?_append, h]
  rfl

lemma findBinding_append_none (l1 l2 : List Binding) (t : TypeId)
    (h : findBinding l1 t = none) : findBinding (l1 ++ l2) t = findBinding l2 t := by
  unfold findBinding at *
  rw [List.find?_append, h]
  rfl

lemma findBinding_singleton_self (t : TypeId) (deps : List TypeId) :
    findBinding [⟨t, deps⟩] t = some ⟨t, deps⟩ := by
  simp [findBinding]

lemma findInstance_singleton_self (t : TypeId) (m : Instantiation) (p : Ptr) :
    findInstance [⟨t, m, p⟩] t = some ⟨t, m, p⟩ := by
  simp [findInstance]

lemma findBinding_singleton_ne (t u : TypeId) (deps : List TypeId) (h : u ≠ t) :
    findBinding [⟨u, deps⟩] t = none := by
  simp [findBinding, h]

lemma findInstance_singleton_ne (t u : TypeId) (m : Instantiation) (p : Ptr) (h : u ≠ t) :
    findInstance [⟨u, m, p⟩] t = none := by
  simp [findInstance, h]

lemma get_findInstance_stable (fuel : Nat) (s : Container) (u t : TypeId)
    (i : TrackedInstance) (h : findInstance s.instances t = some i) :
    findInstance (get fuel s u).1.instances t = some i := by
  obtain ⟨a, ha, -⟩ := resolveList_instances_grow fuel s [u]
  rw [get_state_eq, ha]
  exact findInstance_append_some _ _ _ _ h

lemma runGets_findInstance_stable (calls : List (Nat × TypeId)) (s : Container)
    (t : TypeId) (i : TrackedInstance) (h : findInstance s.instances t = some i) :
    findInstance (runGets s calls).instances t = some i := by
  induction calls generalizing s with
  | nil => exact h
  | cons c cs ih => exact ih _ (get_findInstance_stable c.1 s c.2 t i h)

lemma cacheLookup_seal (s : Container) (t : TypeId) :
    cacheLookup (Seal s) t = cacheLookup s t := rfl

lemma findBinding_seal (s : Container) (t : TypeId) :
    findBinding (Seal s).bindings t = findBinding s.bindings t := rfl

lemma alloc_seal (s : Container) (t : TypeId) (args : List Ptr) :
    alloc (Seal s) t args = (Seal (alloc s t args).1, (alloc s t args).2) := rfl

lemma addInstance_seal (s : Container) (i : TrackedInstance) :
    addInstance (Seal s) i = Seal (addInstance s i) := rfl

/-- Resolution never reads the sealed flag: it commutes with `Seal`. -/
def SealStep (g : Container → List TypeId → Container × List Ptr) : Prop :=
  ∀ s l, g (Seal s) l = (Seal (g s l).1, (g s l).2)

lemma resolveStep_seal (rec : Option (Container → List TypeId → Container × List Ptr))
    (hrec : ∀ g, rec = some g → SealStep g) : SealStep (resolveStep rec) := by
  intro s l
  induction l generalizing s with
  | nil => simp [resolveStep]
  | cons t ts ih =>
    rcases hc : cacheLookup s t with _ | p
    · rcases hb : findBinding s.bindings t with _ | b
      · simp only [resolveStep, cacheLookup_seal, findBinding_seal, hc, hb]
        rw [ih s]
      · rcases rec with _ | g
        · simp only [resolveStep, cacheLookup_seal, findBinding_seal, hc, hb]
          rw [ih s]
        · have hg := hrec g rfl
          simp only [resolveStep, cacheLookup_seal, findBinding_seal, hc, hb,
            hg s b.deps, alloc_seal, addInstance_seal]
          rw [ih]
    · simp only [resolveStep, cacheLookup_seal, hc]
      rw [ih s]

lemma resolveList_seal (fuel : Nat) : SealStep (resolveList fuel) := by
  induction fuel with
  | zero => exact resolveStep_seal none (by intro g h; cases h)
  | succ f ih =>
    refine resolveStep_seal (some (resolveList f)) ?_
    intro g h
    injection h with h
    rw [← h]
    exact ih

lemma get_seal_commutes (fuel : Nat) (s : Container) (t : TypeId) :
    get fuel (Seal s) t = (Seal (get fuel s t).1, (get fuel s t).2) := by
  unfold get
  rw [resolveList_seal fuel s [t]]

lemma unbound_cacheLookup (s : Container) (t : TypeId) (h : Unbound s t) :
    cacheLookup s t = none := by
  simp [cacheLookup, h.2]

lemma cacheLookup_none_mode (s : Container) (t : TypeId) (i : TrackedInstance)
    (hc : cacheLookup s t = none) (hi : findInstance s.instances t = some i) :
    i.mode = Instantiation.factory := by
  unfold cacheLookup at hc
  rw [hi] at hc
  by_contra hne
  simp [hne] at hc

lemma findInstance_none_of_all_bound (a : List TrackedInstance) (s : Container) (d : TypeId)
    (hprop : ∀ i ∈ a, i.mode = Instantiation.factory ∧ (findBinding s.bindings i.ty).isSome = true)
    (hd : findBinding s.bindings d = none) : findInstance a d = none := by
  cases hfa : findInstance a d with
  | none => rfl
  | some i =>
    exfalso
    unfold findInstance at hfa
    have hmem := List.mem_of_find?_eq_some hfa
    have hty : i.ty = d := by
      have := List.find?_some hfa
      simpa using this
    have hbound := (hprop i hmem).2
    rw [hty, hd] at hbound
    simp at hbound

lemma unbound_resolveList (fuel : Nat) (s : Container) (l : List TypeId) (d : TypeId)
    (h : Unbound s d) : Unbound (resolveList fuel s l).1 d := by
  obtain ⟨a, ha, hprop⟩ := resolveList_instances_grow fuel s l
  refine ⟨?_, ?_⟩
  · rw [resolveList_bindings]
    exact h.1
  · rw [ha, findInstance_append_none _ _ _ h.2]
    exact findInstance_none_of_all_bound a s d hprop h.1

lemma unbound_get (fuel : Nat) (s : Container) (u d : TypeId) (h : Unbound s d) :
    Unbound (get fuel s u).1 d := by
  rw [get_state_eq]
  exact unbound_resolveList fuel s [u] d h

lemma get_of_unbound (fuel : Nat) (s : Container) (t : TypeId) (h : Unbound s t) :
    get fuel s t = (s, none) :=
  get_nobind fuel s t (unbound_cacheLookup s t h) h.1

lemma cacheLookup_of_grow (s s2 : Container) (t : TypeId) (added : List TrackedInstance)
    (hi : s2.instances = s.instances ++ added)
    (hadd : ∀ i ∈ added, i.mode = Instantiation.factory)
    (hc : cacheLookup s t = none) : cacheLookup s2 t = none := by
  unfold cacheLookup
  rw [hi]
  cases hfs : findInstance s.instances t with
  | some i =>
    rw [findInstance_append_some _ _ _ _ hfs]
    simp [cacheLookup_none_mode s t i hc hfs]
  | none =>
    rw [findInstance_append_none _ _ _ hfs]
    cases hfa : findInstance added t with
    | none => rfl
    | some j =>
      unfold findInstance at hfa
      simp [hadd j (List.mem_of_find?_eq_some hfa)]

lemma findInstance_singleton_ne_ty (i : TrackedInstance) (t : TypeId) (h : i.ty ≠ t) :
    findInstance [i] t = none := by
  simp [findInstance, h]

lemma unbound_addInstance (s : Container) (t : TypeId) (i : TrackedInstance)
    (hu : Unbound s t) (hne : i.ty ≠ t) : Unbound (addInstance s i) t := by
  refine ⟨hu.1, ?_⟩
  show findInstance (s.instances ++ [i]) t = none
  rw [findInstance_append_none _ _ _ hu.2]
  exact findInstance_singleton_ne_ty i t hne

lemma unbound_alloc (s : Container) (t u : TypeId) (args : List Ptr)
    (hu : Unbound s t) : Unbound (alloc s u args).1 t := hu

lemma unbound_addBind (s : Container) (t : TypeId) (b : Binding)
    (hu : Unbound s t) (hne : b.ty ≠ t) : Unbound (addBind s b) t := by
  refine ⟨?_, hu.2⟩
  show findBinding (s.bindings ++ [b]) t = none
  rw [findBinding_append_none _ _ _ hu.1]
  simp [findBinding, hne]

lemma bind_unbound (fuel : Nat) (s : Container) (u t : TypeId) (deps : List TypeId)
    (mode : Instantiation) (ip : Ptr) (hne : u ≠ t) (hu : Unbound s t) :
    Unbound (bind fuel s u deps mode ip) t := by
  unfold bind
  split
  · exact hu
  split
  · exact hu
  have h1 : Unbound (addBind s ⟨u, deps⟩) t := unbound_addBind s t ⟨u, deps⟩ hu hne
  cases mode with
  | singleton =>
    exact unbound_addInstance _ t _
      (unbound_alloc _ t u _ (unbound_resolveList fuel _ deps t h1)) hne
  | factory => exact h1
  | provided => exact unbound_addInstance _ t _ h1 hne

lemma bind_provided_eq (fuel : Nat) (s : Container) (t : TypeId) (deps : List TypeId)
    (ip : Ptr) (hs : s.sealedFlag = false) (hb : findBinding s.bindings t = none) :
    bind fuel s t deps Instantiation.provided ip =
      addInstance (addBind s ⟨t, deps⟩) ⟨t, Instantiation.provided, ip⟩ := by
  simp [bind, hs, hb]

lemma provided_state_lookup (s : Container) (t : TypeId) (deps : List TypeId) (ip : Ptr)
    (fuel : Nat) (hs : s.sealedFlag = false) (hu : Unbound s t) :
    findBinding (bind fuel s t deps Instantiation.provided ip).bindings t = some ⟨t, deps⟩ ∧
    findInstance (bind fuel s t deps Instantiation.provided ip).instances t =
      some ⟨t, Instantiation.provided, ip⟩ := by
  rw [bind_provided_eq fuel s t deps ip hs hu.1]
  constructor
  · show findBinding (s.bindings ++ [⟨t, deps⟩]) t = some ⟨t, deps⟩
    rw [findBinding_append_none _ _ _ hu.1]
    exact findBinding_singleton_self t deps
  · show findInstance (s.instances ++ [⟨t, Instantiation.provided, ip⟩]) t =
      some ⟨t, Instantiation.provided, ip⟩
    rw [findInstance_append_none _ _ _ hu.2]
    exact findInstance_singleton_self t Instantiation.provided ip

lemma mem_destroyedOnTeardown (s : Container) (i : TrackedInstance) :
    i ∈ destroyedOnTeardown s ↔ i ∈ s.instances ∧ i.mode ≠ Instantiation.provided := by
  simp [destroyedOnTeardown, List.mem_filter, List.mem_reverse]

/-- Positions of an unbound type resolve to `none`: the `i`-th `Get` of
the dependency pack yields a null pointer whenever the `i`-th declared
dependency has no binding and no tracked instance. -/
lemma resolveList_unbound_positions (fuel : Nat) (l : List TypeId) (d : TypeId) :
    ∀ (s : Container), Unbound s d → ∀ i : Nat, l[i]? = some d →
      (resolveList fuel s l).2[i]? = some none := by
  induction l with
  | nil =>
    intro s _ i hi
    simp at hi
  | cons t ts ih =>
    intro s h i hi
    rw [resolveList_cons_get]
    cases i with
    | zero =>
      rw [List.getElem?_cons_zero] at hi
      injection hi with hi
      subst hi
      rw [get_of_unbound fuel s t h]
      simp
    | succ n =>
      rw [List.getElem?_cons_succ] at hi
      have hun : Unbound (get fuel s t).1 d := unbound_get fuel s t d h
      have := ih ((get fuel s t).1) hun n hi
      simpa using this

lemma buildResult_fst_instances (fuel : Nat) (s : Container) (t : TypeId) (b : Binding) :
    (buildResult fuel s t b).1.instances =
      (resolveList fuel s b.deps).1.instances ++
        [⟨t, Instantiation.factory, some (resolveList fuel s b.deps).1.heap.length⟩] := rfl

lemma buildResult_fst_heap (fuel : Nat) (s : Container) (t : TypeId) (b : Binding) :
    (buildResult fuel s t b).1.heap =
      (resolveList fuel s b.deps).1.heap ++ [⟨t, (resolveList fuel s b.deps).2⟩] := rfl

lemma buildResult_snd (fuel : Nat) (s : Container) (t : TypeId) (b : Binding) :
    (buildResult fuel s t b).2 = (resolveList fuel s b.deps).1.heap.length := rfl

lemma buildResult_fst_bindings (fuel : Nat) (s : Container) (t : TypeId) (b : Binding) :
    (buildResult fuel s t b).1.bindings = s.bindings := by
  show (resolveList fuel s b.deps).1.bindings = s.bindings
  exact resolveList_bindings fuel s b.deps

end DI

namespace DI

/-- Container with type `0` bound as dependency-free `singleton`
(instance at address `0`); used to instantiate general theorems. -/
def wSingleton : Container := bind 1 emptyContainer 0 [] Instantiation.singleton none

/-- Container with type `0` bound as dependency-free `factory`. -/
def wFactory : Container := bind 1 emptyContainer 0 [] Instantiation.factory none

/-- Container with type `1` bound as `factory` depending on the
never-bound type `0`. -/
def wDependent : Container := bind 1 emptyContainer 1 [0] Instantiation.factory none

/-- Container with type `0` bound as `provided` with the defaulted
null instance. -/
def wProvidedNull : Container := bind 1 emptyContainer 0 [] Instantiation.provided none

/-- Container with type `0` bound as `provided` with caller instance at
address `42`. -/
def wProvidedX : Container := bind 1 emptyContainer 0 [] Instantiation.provided (some 42)

/-- Claim C1: when the tracked instance cached for `t` has mode
`singleton` (which is what binding `t` with the `singleton` policy
establishes), every `Get<t>` returns the identical pointer: immediately,
and again after any interleaved sequence of `Get` calls for arbitrary
other types, and the immediate call leaves the state untouched. -/
theorem singleton_get_identical (s : Container) (t : TypeId) (inst : TrackedInstance)
    (hfound : findInstance s.instances t = some inst)
    (hmode : inst.mode = Instantiation.singleton)
    (calls : List (Nat × TypeId)) (f1 f2 : Nat) :
    get f1 s t = (s, inst.obj) ∧ (get f2 (runGets s calls) t).2 = inst.obj := by
  have hc : cacheLookup s t = some inst.obj := by
    simp [cacheLookup, hfound, hmode]
  have hfound2 := runGets_findInstance_stable calls s t inst hfound
  have hc2 : cacheLookup (runGets s calls) t = some inst.obj := by
    simp [cacheLookup, hfound2, hmode]
  exact ⟨get_hit f1 s t inst.obj hc, by rw [get_hit f2 (runGets s calls) t inst.obj hc2]⟩

theorem singleton_get_identical_witness :
    get 1 wSingleton 0 = (wSingleton, some 0) ∧
    (get 1 (runGets wSingleton [(1, 7), (1, 0), (0, 3)]) 0).2 = some 0 :=
  singleton_get_identical wSingleton 0 ⟨0, Instantiation.singleton, some 0⟩ (by decide)
    (by decide) [(1, 7), (1, 0), (0, 3)] 1 1

/-- Claim C3: for a type `t` that was never bound, `Get<t>` returns the
null pointer and leaves the state unchanged (and, being a total
function, never throws); the same still holds after a `Bind` for any
other type `u ≠ t`, whatever its policy, dependency list or provided
instance. -/
theorem unbound_get_null (s : Container) (t u : TypeId) (hu : Unbound s t) (hne : u ≠ t)
    (f1 f2 fb : Nat) (deps : List TypeId) (mode : Instantiation) (ip : Ptr) :
    get f1 s t = (s, none) ∧
    get f2 (bind fb s u deps mode ip) t = (bind fb s u deps mode ip, none) :=
  ⟨get_of_unbound f1 s t hu,
    get_of_unbound f2 _ t (bind_unbound fb s u t deps mode ip hne hu)⟩

theorem unbound_get_null_witness :
    get 1 emptyContainer 0 = (emptyContainer, none) ∧
    get 1 (bind 1 emptyContainer 1 [0] Instantiation.singleton none) 0 =
      (bind 1 emptyContainer 1 [0] Instantiation.singleton none, none) :=
  unbound_get_null emptyContainer 0 1 (by decide) (by decide) 1 1 1 [0]
    Instantiation.singleton none

/-- Claim C5: after `Seal`, every `Bind` call returns the state
unchanged; `Seal` is idempotent; and sealing changes neither the binding
list nor the behaviour of `Get`: a `Get` on the sealed container yields
the same pointer, and the same state up to the sealed flag, as on the
unsealed one — so every binding registered before `Seal` remains exactly
as resolvable afterwards. -/
theorem seal_blocks_bind_preserves_get (s : Container) (t u : TypeId) (f fb : Nat)
    (deps : List TypeId) (mode : Instantiation) (ip : Ptr) :
    bind fb (Seal s) u deps mode ip = Seal s ∧
    Seal (Seal s) = Seal s ∧
    (Seal s).bindings = s.bindings ∧
    get f (Seal s) t = (Seal (get f s t).1, (get f s t).2) := by
  refine ⟨?_, rfl, rfl, get_seal_commutes f s t⟩
  simp [bind, Seal]

/-- Claim C6: a second `Bind` for an already-bound type, with any policy,
dependency list or provided instance, returns the container state
exactly unchanged (bindings, instances, and the original recipe all
stand), and reports no error. -/
theorem rebind_noop (fuel : Nat) (s : Container) (t : TypeId) (b : Binding)
    (hb : findBinding s.bindings t = some b) (deps : List TypeId)
    (mode : Instantiation) (ip : Ptr) :
    bind fuel s t deps mode ip = s := by
  simp [bind, hb]

theorem rebind_noop_witness :
    bind 2 wFactory 0 [3] Instantiation.singleton (some 7) = wFactory :=
  rebind_noop 2 wFactory 0 ⟨0, []⟩ (by decide) [3] Instantiation.singleton (some 7)

/-- Claim C10: `Bind<t>(provided)` without an explicit instance caches the
defaulted null pointer: afterwards `t` is bound (its binding is
registered), yet every `Get<t>` returns null without invoking the
binding's build operation — the state, in particular the heap of
constructed objects, is untouched by both the bind and the get. -/
theorem provided_default_null_get (s : Container) (t : TypeId) (deps : List TypeId)
    (fb f : Nat) (hs : s.sealedFlag = false) (hu : Unbound s t) :
    findBinding (bind fb s t deps Instantiation.provided none).bindings t = some ⟨t, deps⟩ ∧
    (bind fb s t deps Instantiation.provided none).heap = s.heap ∧
    get f (bind fb s t deps Instantiation.provided none) t =
      (bind fb s t deps Instantiation.provided none, none) := by
  obtain ⟨hbind, hinst⟩ := provided_state_lookup s t deps none fb hs hu
  refine ⟨hbind, ?_, ?_⟩
  · rw [bind_provided_eq fb s t deps none hs hu.1]
    simp [addInstance, addBind]
  · exact get_hit f _ t none (by simp [cacheLookup, hinst])

theorem provided_default_null_get_witness :
    findBinding wProvidedNull.bindings 0 = some ⟨0, []⟩ ∧
    wProvidedNull.heap = emptyContainer.heap ∧
    get 1 wProvidedNull 0 = (wProvidedNull, none) :=
  provided_default_null_get emptyContainer 0 [] 1 1 (by decide) (by decide)

/-- Claim C4: binding `t` as `provided` with caller instance `x` makes
`Get<t>` return exactly `x` (pointer identity, with the state
untouched); the destructor's sweep destroys every tracked instance whose
mode is not `provided` and only those, so the entry holding `x` is never
destroyed. -/
theorem provided_get_exact_teardown_skips (s : Container) (t : TypeId)
    (deps : List TypeId) (x : Ptr) (fb f : Nat)
    (hs : s.sealedFlag = false) (hu : Unbound s t) :
    get f (bind fb s t deps Instantiation.provided x) t =
      (bind fb s t deps Instantiation.provided x, x) ∧
    ⟨t, Instantiation.provided, x⟩ ∈ (bind fb s t deps Instantiation.provided x).instances ∧
    (⟨t, Instantiation.provided, x⟩ : TrackedInstance) ∉
      destroyedOnTeardown (bind fb s t deps Instantiation.provided x) ∧
    (∀ i ∈ (bind fb s t deps Instantiation.provided x).instances,
      i.mode ≠ Instantiation.provided →
        i ∈ destroyedOnTeardown (bind fb s t deps Instantiation.provided x)) ∧
    (∀ i ∈ destroyedOnTeardown (bind fb s t deps Instantiation.provided x),
      i.mode ≠ Instantiation.provided) := by
  obtain ⟨hbind, hinst⟩ := provided_state_lookup s t deps x fb hs hu
  refine ⟨get_hit f _ t x (by simp [cacheLookup, hinst]), ?_, ?_, ?_, ?_⟩
  · rw [bind_provided_eq fb s t deps x hs hu.1]
    simp [addInstance, addBind]
  · rw [mem_destroyedOnTeardown]
    simp
  · intro i hi hmode
    exact (mem_destroyedOnTeardown _ i).mpr ⟨hi, hmode⟩
  · intro i hi
    exact ((mem_destroyedOnTeardown _ i).mp hi).2

theorem provided_get_exact_teardown_skips_witness :
    get 1 wProvidedX 0 = (wProvidedX, some 42) ∧
    ⟨0, Instantiation.provided, some 42⟩ ∈ wProvidedX.instances ∧
    (⟨0, Instantiation.provided, some 42⟩ : TrackedInstance) ∉ destroyedOnTeardown wProvidedX ∧
    (∀ i ∈ wProvidedX.instances, i.mode ≠ Instantiation.provided →
      i ∈ destroyedOnTeardown wProvidedX) ∧
    (∀ i ∈ destroyedOnTeardown wProvidedX, i.mode ≠ Instantiation.provided) :=
  provided_get_exact_teardown_skips emptyContainer 0 [] (some 42) 1 1 (by decide) (by decide)

end DI

namespace DI

/-- Claim C2: for a type `t` that is bound and whose cache check misses
(no tracked instance, or only `factory`-mode ones — exactly the cache
state of a `factory`-bound type, however many previously built instances
exist), two consecutive `Get<t>` calls each construct a brand-new
object: both return non-null pointers, the first points past every
previously allocated object, the two are distinct, and each built
instance is appended to the tracked-instance list with mode `factory`. -/
theorem factory_get_fresh_each_time (f1 f2 : Nat) (s : Container) (t : TypeId) (b : Binding)
    (hb : findBinding s.bindings t = some b) (hc : cacheLookup s t = none) :
    ∃ a1 a2,
      (get (f1 + 1) s t).2 = some a1 ∧
      (get (f2 + 1) (get (f1 + 1) s t).1 t).2 = some a2 ∧
      a1 ≠ a2 ∧
      s.heap.length ≤ a1 ∧
      ⟨t, Instantiation.factory, some a1⟩ ∈ (get (f1 + 1) s t).1.instances ∧
      ⟨t, Instantiation.factory, some a2⟩ ∈
        (get (f2 + 1) (get (f1 + 1) s t).1 t).1.instances := by
  have h1 := get_succ_build f1 s t b hc hb
  obtain ⟨ga, hga, hgaprop⟩ := resolveList_instances_grow f1 s b.deps
  obtain ⟨gh, hgh⟩ := resolveList_heap_grows f1 s b.deps
  set s1 := (buildResult f1 s t b).1 with hs1
  have hb1 : findBinding s1.bindings t = some b := by
    rw [hs1, buildResult_fst_bindings]
    exact hb
  have hc1 : cacheLookup s1 t = none := by
    refine cacheLookup_of_grow s s1 t
      (ga ++ [⟨t, Instantiation.factory, some (resolveList f1 s b.deps).1.heap.length⟩])
      ?_ ?_ hc
    · rw [hs1, buildResult_fst_instances, hga, List.append_assoc]
    · intro i hi
      rcases List.mem_append.mp hi with h | h
      · exact (hgaprop i h).1
      · rw [List.mem_singleton] at h
        subst h
        rfl
  have h2 := get_succ_build f2 s1 t b hc1 hb1
  obtain ⟨gh2, hgh2⟩ := resolveList_heap_grows f2 s1 b.deps
  have hlen1 : s1.heap.length = (resolveList f1 s b.deps).1.heap.length + 1 := by
    rw [hs1, buildResult_fst_heap]
    simp
  have ha1 : s.heap.length ≤ (resolveList f1 s b.deps).1.heap.length := by
    rw [hgh]
    simp
  have ha2 : (resolveList f1 s b.deps).1.heap.length + 1 ≤
      (resolveList f2 s1 b.deps).1.heap.length := by
    rw [hgh2, List.length_append, hlen1]
    omega
  refine ⟨(resolveList f1 s b.deps).1.heap.length,
    (resolveList f2 s1 b.deps).1.heap.length, ?_, ?_, by omega, ha1, ?_, ?_⟩
  · rw [h1, buildResult_snd]
  · rw [h1]
    show (get (f2 + 1) s1 t).2 = _
    rw [h2, buildResult_snd]
  · rw [h1]
    show _ ∈ s1.instances
    rw [hs1, buildResult_fst_instances]
    simp
  · rw [h1]
    show _ ∈ (get (f2 + 1) s1 t).1.instances
    rw [h2]
    show _ ∈ (buildResult f2 s1 t b).1.instances
    rw [buildResult_fst_instances]
    simp

theorem factory_get_fresh_each_time_witness :
    ∃ a1 a2,
      (get 1 wFactory 0).2 = some a1 ∧
      (get 1 (get 1 wFactory 0).1 0).2 = some a2 ∧
      a1 ≠ a2 ∧
      wFactory.heap.length ≤ a1 ∧
      ⟨0, Instantiation.factory, some a1⟩ ∈ (get 1 wFactory 0).1.instances ∧
      ⟨0, Instantiation.factory, some a2⟩ ∈ (get 1 (get 1 wFactory 0).1 0).1.instances :=
  factory_get_fresh_each_time 0 0 wFactory 0 ⟨0, []⟩ (by decide) (by decide)

end DI

namespace DI

/-- Claim C9: resolving a bound type `t` one of whose declared
dependencies `d` was never bound does not fail: `Get<t>` still returns a
non-null pointer to a freshly constructed `t` object, and in that
object's recorded constructor arguments every position holding `d`
received the null pointer, passed through unchecked. -/
theorem unbound_dep_null_passthrough (fuel : Nat) (s : Container) (t d : TypeId) (b : Binding)
    (hb : findBinding s.bindings t = some b) (hc : cacheLookup s t = none)
    (hd : d ∈ b.deps) (hu : Unbound s d) :
    ∃ a args,
      (get (fuel + 1) s t).2 = some a ∧
      (get (fuel + 1) s t).1.heap[a]? = some ⟨t, args⟩ ∧
      args.length = b.deps.length ∧
      (∀ i : Nat, b.deps[i]? = some d → args[i]? = some none) ∧
      none ∈ args := by
  have h1 := get_succ_build fuel s t b hc hb
  have hpos := resolveList_unbound_positions fuel b.deps d s hu
  refine ⟨(resolveList fuel s b.deps).1.heap.length, (resolveList fuel s b.deps).2,
    ?_, ?_, resolveList_length fuel s b.deps, hpos, ?_⟩
  · rw [h1, buildResult_snd]
  · rw [h1]
    show (buildResult fuel s t b).1.heap[_]? = _
    rw [buildResult_fst_heap]
    exact List.getElem?_concat_length _ _
  · obtain ⟨n, hn⟩ := List.mem_iff_getElem?.mp hd
    exact List.mem_iff_getElem?.mpr ⟨n, hpos n hn⟩

theorem unbound_dep_null_passthrough_witness :
    ∃ a args,
      (get 1 wDependent 1).2 = some a ∧
      (get 1 wDependent 1).1.heap[a]? = some ⟨1, args⟩ ∧
      args.length = ([0] : List TypeId).length ∧
      (∀ i : Nat, ([0] : List TypeId)[i]? = some 0 → args[i]? = some none) ∧
      none ∈ args :=
  unbound_dep_null_passthrough 0 wDependent 1 0 ⟨1, [0]⟩ (by decide) (by decide)
    (by decide) (by decide)

end DI

namespace DI

/-- Claim C8, as stated, is false: in the sequence "Bind B declaring
dependency A, then Bind A as a singleton, then Get<B>", `Bind`'s
defaulted policy is `singleton` (line 104), so B is built eagerly at its
own bind time, while A is still unbound.  Concretely with A = 0, B = 1:
A's singleton instance `a` lives at address 1, yet `Get<B>` returns the
bind-time object at address 0, whose recorded constructor argument is
the null pointer — not `a`. -/
theorem wiring_default_singleton_counterexample :
    findInstance (bind 1 (bind 1 emptyContainer 1 [0] Instantiation.singleton none) 0 []
        Instantiation.singleton none).instances 0 =
      some ⟨0, Instantiation.singleton, some 1⟩ ∧
    (get 2 (bind 1 (bind 1 emptyContainer 1 [0] Instantiation.singleton none) 0 []
        Instantiation.singleton none) 1).2 = some 0 ∧
    (get 2 (bind 1 (bind 1 emptyContainer 1 [0] Instantiation.singleton none) 0 []
        Instantiation.singleton none) 1).1.heap[0]? = some ⟨1, [none]⟩ ∧
    ([none] : List Ptr) ≠ [some 1] := by
  decide

/-- Claim C8, amended: the wiring property holds when B is bound with the
`factory` policy, so that its construction is deferred past A's bind.
For any two distinct type ids A `≠` B: after Bind B (dependency list
[A], policy factory), then Bind A (singleton, producing instance `a`),
`Get<B>` returns a B that was constructed with exactly `a` as its
dependency argument. -/
theorem wiring_factory_dependent (tA tB : TypeId) (hne : tA ≠ tB) (f1 f2 fg : Nat) :
    ∃ aA aB,
      findInstance (bind f2 (bind f1 emptyContainer tB [tA] Instantiation.factory none)
          tA [] Instantiation.singleton none).instances tA =
        some ⟨tA, Instantiation.singleton, some aA⟩ ∧
      (get (fg + 1) (bind f2 (bind f1 emptyContainer tB [tA] Instantiation.factory none)
          tA [] Instantiation.singleton none) tB).2 = some aB ∧
      (get (fg + 1) (bind f2 (bind f1 emptyContainer tB [tA] Instantiation.factory none)
          tA [] Instantiation.singleton none) tB).1.heap[aB]? =
        some ⟨tB, [some aA]⟩ := by
  have hba : (tB == tA) = false := beq_eq_false_iff_ne.mpr (Ne.symm hne)
  have hab : (tA == tB) = false := beq_eq_false_iff_ne.mpr hne
  have hs1 : bind f1 emptyContainer tB [tA] Instantiation.factory none =
      (⟨[⟨tB, [tA]⟩], [], false, []⟩ : Container) := rfl
  have hs2 : bind f2 (⟨[⟨tB, [tA]⟩], [], false, []⟩ : Container) tA []
      Instantiation.singleton none =
      (⟨[⟨tB, [tA]⟩, ⟨tA, []⟩], [⟨tA, Instantiation.singleton, some 0⟩], false,
        [⟨tA, []⟩]⟩ : Container) := by
    simp [bind, findBinding, addBind, addInstance, alloc, hba, resolveList_nil]
  set s2 : Container := ⟨[⟨tB, [tA]⟩, ⟨tA, []⟩], [⟨tA, Instantiation.singleton, some 0⟩],
    false, [⟨tA, []⟩]⟩ with hs2def
  have hcA : cacheLookup s2 tA = some (some 0) := by
    simp [cacheLookup, findInstance, hs2def, hba]
  have hcB : cacheLookup s2 tB = none := by
    simp [cacheLookup, findInstance, hab, hs2def]
  have hbB : findBinding s2.bindings tB = some ⟨tB, [tA]⟩ := by
    simp [findBinding, hs2def]
  have hrd : resolveList fg s2 [tA] = (s2, [some 0]) := by
    rw [resolveList_cons_hit fg s2 tA [] (some 0) hcA, resolveList_nil]
  have hget := get_succ_build fg s2 tB ⟨tB, [tA]⟩ hcB hbB
  refine ⟨0, 1, ?_, ?_, ?_⟩
  · rw [hs1, hs2]
    simp [findInstance, hs2def, hba]
  · rw [hs1, hs2, hget]
    simp [buildResult, hrd, alloc]
  · rw [hs1, hs2, hget]
    simp [buildResult, hrd, alloc, addInstance]

theorem wiring_factory_dependent_witness :
    ∃ aA aB,
      findInstance (bind 0 (bind 0 emptyContainer 1 [0] Instantiation.factory none)
          0 [] Instantiation.singleton none).instances 0 =
        some ⟨0, Instantiation.singleton, some aA⟩ ∧
      (get 1 (bind 0 (bind 0 emptyContainer 1 [0] Instantiation.factory none)
          0 [] Instantiation.singleton none) 1).2 = some aB ∧
      (get 1 (bind 0 (bind 0 emptyContainer 1 [0] Instantiation.factory none)
          0 [] Instantiation.singleton none) 1).1.heap[aB]? =
        some ⟨1, [some aA]⟩ :=
  wiring_factory_dependent 0 1 (by decide) 0 0 0

end DI
